import Mathlib

/-!
# Verification of `DeleteCommand` (ckeditor5-typing, `src/deletecommand.js`)

This file gives a shallow embedding of the delete command of the typing
package: the `execute` method, the private predicate
`_shouldEntireContentBeReplacedWithParagraph` and the private helper
`_replaceEntireContentWithParagraph`.

The document model (elements, positions, ranges, selections), the schema
and the selection/content services of the engine are external
collaborators of the command; they are embedded as an abstract
environment `Env` of oracle functions whose signatures follow the
interface contracts the command consumes (§6 of the design document):
`modifySelection` mutates a selection value, `deleteContent` removes the
spanned content from the document and collapses the passed selection,
`schema.check` and `getLimitElement` are pure queries, positions answer
`isTouching`, and a range decomposes into minimal flat ranges each of
which can be walked with a given walker configuration.

The change buffer (the aggregator of consecutive deletions into one undo
step) is not part of the sources under verification, so its `lock`,
`unlock` and `input` operations are modelled from the spec: a lock depth
counter incremented by `lock` and decremented by `unlock`, and a running
unit count accumulated by `input`.

State changes of an `execute` run are captured twice: in the resulting
`DeleteState`, and as a trace of `Event`s in the order the source
performs them, which lets ordering properties be stated directly.
-/

namespace DeleteCommand

/-- The directionality of the delete, fixed at command construction. -/
inductive Direction
  | forward
  | backward
deriving DecidableEq, Repr

/-- A model position: an opaque value; `Position#isTouching` is answered
by the environment. -/
structure Pos where
  id : Nat
deriving DecidableEq, Repr

/-- A model range: an opaque value; decomposition into minimal flat
ranges, walking, and `getCommonAncestor` are answered by the
environment. -/
structure Rng where
  id : Nat
deriving DecidableEq, Repr

/-- A model element: only its `name` and an identity are visible to the
command (`limitElement.name`, `getCommonAncestor().name`, and the
freshly constructed `new Element( 'paragraph' )`). -/
structure MElem where
  name : String
  id : Nat
deriving DecidableEq, Repr

/-- A model selection value. The command reads `isCollapsed`,
`isBackward`, `getFirstRange()`, `getRanges()`, `getFirstPosition()` and
`getLastPosition()`; `collapsedIn` records the element into which
`Selection#collapse` last collapsed the selection (modelled from the
spec: "collapse the selection inside the new block"). -/
structure Sel where
  isCollapsed : Bool
  isBackward : Bool
  firstRange : Rng
  ranges : List Rng
  firstPosition : Pos
  lastPosition : Pos
  collapsedIn : Option Nat
deriving DecidableEq, Repr

/-- Modelled from the spec: `Selection#collapse( element )` of the engine
places the selection collapsed inside the given element. -/
def Sel.collapse (s : Sel) (element : MElem) : Sel :=
  { s with isCollapsed := true, collapsedIn := some element.id }

/-- The options of `TreeWalker` as passed by `execute` at
`range.getWalker( { singleCharacters: true, ignoreElementEnd: true, shallow: true } )`. -/
structure WalkerOpts where
  singleCharacters : Bool
  ignoreElementEnd : Bool
  shallow : Bool
deriving DecidableEq, Repr

/-- The full state the command can affect.

`limitChildren` is the child list of the limit element containing the
live selection (modelled from the spec, which is where the
entire-content replacement removes and inserts); `liveSel` is the live
document selection (`document.selection`); `lockDepth` and
`bufferedUnits` are the change buffer's lock depth counter and running
unit count, modelled from the spec (the buffer sources are outside the
verified tree). -/
structure DeleteState where
  limitChildren : List MElem
  liveSel : Sel
  lockDepth : Int
  bufferedUnits : Nat
deriving DecidableEq, Repr

/-- Modelled from the spec: `ChangeBuffer#lock` increments the lock
depth counter. -/
def bufferLock (st : DeleteState) : DeleteState :=
  { st with lockDepth := st.lockDepth + 1 }

/-- Modelled from the spec: `ChangeBuffer#unlock` decrements the lock
depth counter. -/
def bufferUnlock (st : DeleteState) : DeleteState :=
  { st with lockDepth := st.lockDepth - 1 }

/-- Modelled from the spec: `ChangeBuffer#input( count )` accumulates
the deleted-unit count of the current step. -/
def bufferInput (st : DeleteState) (count : Nat) : DeleteState :=
  { st with bufferedUnits := st.bufferedUnits + count }

/-- The external collaborators of the command (engine model, schema,
selection-extension and content-removal services), as the interfaces the
command consumes. -/
structure Env where
  /-- `document.schema.getLimitElement( selection )`. -/
  getLimitElement : Sel → MElem
  /-- `Position.createAt( element )` (offset `0`, the element's start). -/
  createAtStart : MElem → Pos
  /-- `Position.createAt( element, 'end' )`. -/
  createAtEnd : MElem → Pos
  /-- `a.isTouching( b )`. -/
  touching : Pos → Pos → Bool
  /-- `document.schema.check( { name, inside } )`. -/
  schemaCheck : String → String → Bool
  /-- `range.getCommonAncestor()`. -/
  getCommonAncestor : Rng → MElem
  /-- `dataController.modifySelection( selection, { direction, unit } )`:
  the selection value after the extension attempt (may still be
  collapsed when no extension is possible). -/
  modifySelection : Sel → Direction → Option String → Sel
  /-- `range.getMinimalFlatRanges()`. -/
  getMinimalFlatRanges : Rng → List Rng
  /-- `count( range.getWalker( opts ) )`: the number of items yielded by
  walking the range with the given options. -/
  walkerCount : Rng → WalkerOpts → Nat
  /-- Effect of `dataController.deleteContent( selection, batch,
  { doNotResetEntireContent } )` on the limit element's children. -/
  deleteContentChildren : List MElem → Sel → Bool → List MElem
  /-- Effect of `dataController.deleteContent` on the passed selection
  (the remover collapses it at the removal position). -/
  deleteContentSel : Sel → Bool → Sel
  /-- `doc.selection.setRanges( ranges, isBackward )` on the live
  selection. -/
  docSetRanges : Sel → List Rng → Bool → Sel
  /-- Identity of the one element constructed with
  `new Element( 'paragraph' )` during a run. -/
  freshId : Nat

/-- JavaScript `v || d` for the numeric option `options.sequence`:
`undefined` and `0` are falsy and fall through to the default. -/
def jsOrDefault (v : Option Int) (d : Int) : Int :=
  match v with
  | none => d
  | some n => if n == 0 then d else n

/-- The options object of `execute( options )`. -/
structure Options where
  unit : Option String
  sequence : Option Int
deriving DecidableEq, Repr

/-- One observable action of a run, in source order. -/
inductive Event
  | lock
  | unlock
  | modifySel (direction : Direction) (unit : Option String)
  | deleteContent (doNotResetEntireContent : Bool)
  | input (changeCount : Nat)
  | setLiveSelRanges
  | batchRemoveAllInLimit (limitId : Nat)
  | batchInsertAtLimitStart (limitId : Nat) (name : String)
  | collapseLiveSel (elementId : Nat)
deriving DecidableEq, Repr

/-- `_shouldEntireContentBeReplacedWithParagraph( sequence )`, threaded
through the state it reads: returns the decision, the state after
evaluation and the trace of mutating actions it performed (the source
only queries `document`, `document.selection` and `document.schema`). -/
def shouldEntireContentBeReplacedWithParagraphRun (env : Env) (sequence : Int)
    (st : DeleteState) : Bool × DeleteState × List Event :=
  -- Does nothing if user pressed and held the "Backspace" or "Delete" key.
  if sequence > 1 then
    (false, st, [])
  else
    let selection := st.liveSel
    let limitElement := env.getLimitElement selection
    let limitStartPosition := env.createAtStart limitElement
    let limitEndPosition := env.createAtEnd limitElement
    if !(env.touching limitStartPosition selection.firstPosition) ||
       !(env.touching limitEndPosition selection.lastPosition) then
      (false, st, [])
    else if !(env.schemaCheck "paragraph" limitElement.name) then
      (false, st, [])
    -- Does nothing if editor already contains an empty paragraph.
    else if (env.getCommonAncestor selection.firstRange).name == "paragraph" then
      (false, st, [])
    else
      (true, st, [])

/-- `_replaceEntireContentWithParagraph()`: `batch.remove( Range.createIn(
limitElement ) )` empties the limit element's child list (modelled from
the spec: "remove the full range spanning the limit element's content"),
`batch.insert( Position.createAt( limitElement ), paragraph )` inserts
the new paragraph at the limit element's start (offset `0`), and
`selection.collapse( paragraph )` collapses the live selection inside
it. -/
def replaceEntireContentWithParagraphRun (env : Env)
    (st : DeleteState) : DeleteState × List Event :=
  let selection := st.liveSel
  let limitElement := env.getLimitElement selection
  let paragraph : MElem := { name := "paragraph", id := env.freshId }
  let st1 := { st with limitChildren := ([] : List MElem) }
  let st2 := { st1 with limitChildren := paragraph :: st1.limitChildren }
  let st3 := { st2 with liveSel := Sel.collapse st2.liveSel paragraph }
  (st3,
   [Event.batchRemoveAllInLimit limitElement.id,
    Event.batchInsertAtLimitStart limitElement.id paragraph.name,
    Event.collapseLiveSel paragraph.id])

/-- `execute( options )`. The whole body runs synchronously inside
`doc.enqueueChanges`, so it is one atomic state transition. Mirrors the
source line by line: lock the buffer, clone the live selection, record
`doNotResetEntireContent` before any extension, extend if collapsed,
early-return (without unlocking) when still collapsed — replacing the
entire content first when the predicate allows it — and otherwise count
units over the minimal flat ranges, delete the content, report the
count, copy the working selection onto the live one and unlock. -/
def execute (env : Env) (direction : Direction) (options : Options)
    (st0 : DeleteState) : DeleteState × List Event :=
  -- this._buffer.lock();
  let st1 := bufferLock st0
  -- const selection = Selection.createFromSelection( doc.selection );
  let selection := st1.liveSel
  -- const doNotResetEntireContent = selection.isCollapsed;
  let doNotResetEntireContent := selection.isCollapsed
  -- if ( selection.isCollapsed ) { dataController.modifySelection( ... ); }
  let selection1 :=
    if selection.isCollapsed then
      env.modifySelection selection direction options.unit
    else selection
  let tr1 : List Event :=
    if selection.isCollapsed then
      [Event.lock, Event.modifySel direction options.unit]
    else [Event.lock]
  -- if ( selection.isCollapsed ) { ... return; }
  if selection1.isCollapsed then
    let sequence := jsOrDefault options.sequence 1
    let p := shouldEntireContentBeReplacedWithParagraphRun env sequence st1
    if p.1 then
      let r := replaceEntireContentWithParagraphRun env p.2.1
      (r.1, tr1 ++ p.2.2 ++ r.2)
    else
      (p.2.1, tr1 ++ p.2.2)
  else
    -- let changeCount = 0; ...getMinimalFlatRanges().forEach( ... );
    let changeCount :=
      (env.getMinimalFlatRanges selection1.firstRange).foldl
        (fun changeCount range =>
          changeCount + env.walkerCount range
            { singleCharacters := true, ignoreElementEnd := true, shallow := true })
        0
    -- dataController.deleteContent( selection, this._buffer.batch, { doNotResetEntireContent } );
    let st2 := { st1 with
      limitChildren := env.deleteContentChildren st1.limitChildren selection1 doNotResetEntireContent }
    let selection2 := env.deleteContentSel selection1 doNotResetEntireContent
    -- this._buffer.input( changeCount );
    let st3 := bufferInput st2 changeCount
    -- doc.selection.setRanges( selection.getRanges(), selection.isBackward );
    let st4 := { st3 with liveSel := env.docSetRanges st3.liveSel selection2.ranges selection2.isBackward }
    -- this._buffer.unlock();
    let st5 := bufferUnlock st4
    (st5,
     tr1 ++ [Event.deleteContent doNotResetEntireContent,
             Event.input changeCount,
             Event.setLiveSelRanges,
             Event.unlock])

/-- The working selection of a run: the clone of the live selection
after the extension attempt of the collapsed case. -/
def workingSel (env : Env) (direction : Direction) (options : Options)
    (st : DeleteState) : Sel :=
  if st.liveSel.isCollapsed then
    env.modifySelection st.liveSel direction options.unit
  else st.liveSel

/-! ## Helper lemmas -/

/-- The decision of the predicate as a function of the live selection
alone (closed form of the first component of the run). -/
def shouldFlag (env : Env) (sequence : Int) (selection : Sel) : Bool :=
  if sequence > 1 then false
  else
    let limitElement := env.getLimitElement selection
    if !(env.touching (env.createAtStart limitElement) selection.firstPosition) ||
       !(env.touching (env.createAtEnd limitElement) selection.lastPosition) then false
    else if !(env.schemaCheck "paragraph" limitElement.name) then false
    else if (env.getCommonAncestor selection.firstRange).name == "paragraph" then false
    else true

lemma shouldReplaceRun_fst (env : Env) (sequence : Int) (st : DeleteState) :
    (shouldEntireContentBeReplacedWithParagraphRun env sequence st).1 =
      shouldFlag env sequence st.liveSel := by
  simp only [shouldEntireContentBeReplacedWithParagraphRun, shouldFlag]
  split_ifs <;> rfl

lemma shouldReplaceRun_state (env : Env) (sequence : Int) (st : DeleteState) :
    (shouldEntireContentBeReplacedWithParagraphRun env sequence st).2.1 = st := by
  simp only [shouldEntireContentBeReplacedWithParagraphRun]
  split_ifs <;> rfl

lemma shouldReplaceRun_trace (env : Env) (sequence : Int) (st : DeleteState) :
    (shouldEntireContentBeReplacedWithParagraphRun env sequence st).2.2 = [] := by
  simp only [shouldEntireContentBeReplacedWithParagraphRun]
  split_ifs <;> rfl

lemma bufferLock_liveSel (st : DeleteState) : (bufferLock st).liveSel = st.liveSel := rfl

lemma foldl_add_eq_sum_map (f : Rng → Nat) (l : List Rng) (a : Nat) :
    l.foldl (fun acc r => acc + f r) a = a + (l.map f).sum := by
  induction l generalizing a with
  | nil => simp
  | cons x xs ih =>
    simp only [List.foldl_cons, List.map_cons, List.sum_cons, ih (a + f x)]
    omega

lemma execute_still_collapsed (env : Env) (direction : Direction) (options : Options)
    (st : DeleteState)
    (h1 : st.liveSel.isCollapsed = true)
    (h2 : (env.modifySelection st.liveSel direction options.unit).isCollapsed = true) :
    execute env direction options st =
      (if (shouldEntireContentBeReplacedWithParagraphRun env
            (jsOrDefault options.sequence 1) st).1 = true
       then ((replaceEntireContentWithParagraphRun env (bufferLock st)).1,
             [Event.lock, Event.modifySel direction options.unit] ++
               (replaceEntireContentWithParagraphRun env (bufferLock st)).2)
       else (bufferLock st, [Event.lock, Event.modifySel direction options.unit])) := by
  have hfst : (shouldEntireContentBeReplacedWithParagraphRun env
      (jsOrDefault options.sequence 1) (bufferLock st)).1 =
      (shouldEntireContentBeReplacedWithParagraphRun env
      (jsOrDefault options.sequence 1) st).1 := by
    rw [shouldReplaceRun_fst, shouldReplaceRun_fst, bufferLock_liveSel]
  simp only [execute, bufferLock_liveSel, h1, h2, if_true, ite_true,
    shouldReplaceRun_state, shouldReplaceRun_trace, List.append_nil, hfst]

lemma execute_not_collapsed (env : Env) (direction : Direction) (options : Options)
    (st : DeleteState)
    (h : (workingSel env direction options st).isCollapsed = false) :
    execute env direction options st =
      ({ limitChildren := env.deleteContentChildren st.limitChildren
            (workingSel env direction options st) st.liveSel.isCollapsed,
         liveSel := env.docSetRanges st.liveSel
            (env.deleteContentSel (workingSel env direction options st)
              st.liveSel.isCollapsed).ranges
            (env.deleteContentSel (workingSel env direction options st)
              st.liveSel.isCollapsed).isBackward,
         lockDepth := st.lockDepth,
         bufferedUnits := st.bufferedUnits +
           ((env.getMinimalFlatRanges (workingSel env direction options st).firstRange).map
             (fun range => env.walkerCount range
               { singleCharacters := true, ignoreElementEnd := true, shallow := true })).sum },
       (if st.liveSel.isCollapsed then
          [Event.lock, Event.modifySel direction options.unit]
        else [Event.lock]) ++
         [Event.deleteContent st.liveSel.isCollapsed,
          Event.input (((env.getMinimalFlatRanges
              (workingSel env direction options st).firstRange).map
            (fun range => env.walkerCount range
              { singleCharacters := true, ignoreElementEnd := true, shallow := true })).sum),
          Event.setLiveSelRanges, Event.unlock]) := by
  cases hc : st.liveSel.isCollapsed with
  | true =>
    have hw : workingSel env direction options st =
        env.modifySelection st.liveSel direction options.unit := by
      simp [workingSel, hc]
    rw [hw] at h
    simp only [execute, bufferLock, bufferUnlock, bufferInput, hc, if_true, ite_true, h,
      if_false, Bool.false_eq_true, ite_false, hw,
      foldl_add_eq_sum_map (fun range => env.walkerCount range
        { singleCharacters := true, ignoreElementEnd := true, shallow := true }),
      Nat.zero_add, add_sub_cancel_right]
  | false =>
    have hw : workingSel env direction options st = st.liveSel := by
      simp [workingSel, hc]
    rw [hw] at h
    simp only [execute, bufferLock, bufferUnlock, bufferInput, hc, if_false,
      Bool.false_eq_true, ite_false, h, hw,
      foldl_add_eq_sum_map (fun range => env.walkerCount range
        { singleCharacters := true, ignoreElementEnd := true, shallow := true }),
      Nat.zero_add, add_sub_cancel_right]

/-! ## Claim theorems -/

/-- C2: the entire-content-replacement predicate returns `true` iff all
of the following hold — `sequence == 1` (within the request domain
`sequence ≥ 1`), the live selection's first position touches the limit
element's start boundary, its last position touches the limit element's
end boundary, the schema permits a paragraph inside the limit element,
and the common ancestor of the live selection's first range is not
already a paragraph; it returns `false` as soon as any condition
fails. -/
theorem shouldReplace_true_iff (env : Env) (st : DeleteState) (sequence : Int)
    (hdom : 1 ≤ sequence) :
    (shouldEntireContentBeReplacedWithParagraphRun env sequence st).1 = true ↔
      (sequence = 1 ∧
       env.touching (env.createAtStart (env.getLimitElement st.liveSel))
         st.liveSel.firstPosition = true ∧
       env.touching (env.createAtEnd (env.getLimitElement st.liveSel))
         st.liveSel.lastPosition = true ∧
       env.schemaCheck "paragraph" (env.getLimitElement st.liveSel).name = true ∧
       (env.getCommonAncestor st.liveSel.firstRange).name ≠ "paragraph") := by
  simp only [shouldEntireContentBeReplacedWithParagraphRun]
  split_ifs with h1 h2 h3 h4
  · simp only [false_iff]
    rintro ⟨rfl, -⟩
    omega
  · simp only [Bool.or_eq_true, Bool.not_eq_eq_eq_not, Bool.not_true] at h2
    simp only [false_iff]
    rintro ⟨-, ht1, ht2, -⟩
    rcases h2 with h2 | h2 <;> simp_all
  · simp only [Bool.not_eq_eq_eq_not, Bool.not_true] at h3
    simp only [false_iff]
    rintro ⟨-, -, -, hs, -⟩
    simp_all
  · simp only [beq_iff_eq] at h4
    simp only [false_iff]
    rintro ⟨-, -, -, -, hc⟩
    exact hc h4
  · simp only [Bool.or_eq_true, Bool.not_eq_eq_eq_not, Bool.not_true, not_or] at h2
    simp only [Bool.not_eq_eq_eq_not, Bool.not_true] at h3
    simp only [beq_iff_eq] at h4
    have hseq : sequence = 1 := by omega
    refine ⟨fun _ => ⟨hseq, ?_, ?_, ?_, h4⟩, fun _ => rfl⟩
    · simpa using h2.1
    · simpa using h2.2
    · simpa using h3

/-- C10: evaluating the entire-content-replacement predicate is
side-effect-free — the state (document tree, live selection, change
buffer) after the evaluation is the one before it, and the evaluation
performs no mutating actions, whatever boolean it returns. -/
theorem shouldReplace_side_effect_free (env : Env) (sequence : Int) (st : DeleteState) :
    (shouldEntireContentBeReplacedWithParagraphRun env sequence st).2.1 = st ∧
    (shouldEntireContentBeReplacedWithParagraphRun env sequence st).2.2 = [] := by
  simp only [shouldEntireContentBeReplacedWithParagraphRun]
  split_ifs <;> exact ⟨rfl, rfl⟩

/-- C3: when the selection is and remains collapsed and the
entire-content-replacement predicate is true, `execute` removes the full
range spanning the limit element's content, inserts exactly one new
empty paragraph element at the limit element's start so that it becomes
the limit element's sole child, and collapses the live selection inside
that new paragraph (the trace shows the removal of the limit element's
content followed by the insertion at its start). -/
theorem execute_replaces_entire_content (env : Env) (direction : Direction)
    (options : Options) (st : DeleteState)
    (h1 : st.liveSel.isCollapsed = true)
    (h2 : (env.modifySelection st.liveSel direction options.unit).isCollapsed = true)
    (h3 : (shouldEntireContentBeReplacedWithParagraphRun env
            (jsOrDefault options.sequence 1) st).1 = true) :
    (execute env direction options st).1.limitChildren =
      [{ name := "paragraph", id := env.freshId }] ∧
    (execute env direction options st).1.liveSel.isCollapsed = true ∧
    (execute env direction options st).1.liveSel.collapsedIn = some env.freshId ∧
    (execute env direction options st).2 =
      [Event.lock, Event.modifySel direction options.unit,
       Event.batchRemoveAllInLimit (env.getLimitElement st.liveSel).id,
       Event.batchInsertAtLimitStart (env.getLimitElement st.liveSel).id "paragraph",
       Event.collapseLiveSel env.freshId] := by
  rw [execute_still_collapsed env direction options st h1 h2, if_pos h3]
  simp [replaceEntireContentWithParagraphRun, Sel.collapse, bufferLock_liveSel]

/-- C4: when the working selection is still collapsed after the
extension attempt and the replacement predicate does not apply (in
particular whenever the effective sequence is greater than `1`),
`execute` leaves the document tree and the live document selection
unchanged — no content is removed, no paragraph is inserted, and no
count is reported. -/
theorem execute_noop_when_still_collapsed (env : Env) (direction : Direction)
    (options : Options) (st : DeleteState)
    (h1 : st.liveSel.isCollapsed = true)
    (h2 : (env.modifySelection st.liveSel direction options.unit).isCollapsed = true)
    (h3 : 1 < jsOrDefault options.sequence 1 ∨
          (shouldEntireContentBeReplacedWithParagraphRun env
            (jsOrDefault options.sequence 1) st).1 = false) :
    (execute env direction options st).1.limitChildren = st.limitChildren ∧
    (execute env direction options st).1.liveSel = st.liveSel ∧
    (execute env direction options st).1.bufferedUnits = st.bufferedUnits ∧
    (∀ b, Event.deleteContent b ∉ (execute env direction options st).2) ∧
    (∀ i, Event.batchRemoveAllInLimit i ∉ (execute env direction options st).2) ∧
    (∀ i nm, Event.batchInsertAtLimitStart i nm ∉ (execute env direction options st).2) ∧
    (∀ n, Event.input n ∉ (execute env direction options st).2) := by
  have hfalse : (shouldEntireContentBeReplacedWithParagraphRun env
      (jsOrDefault options.sequence 1) st).1 = false := by
    rcases h3 with h3 | h3
    · rw [shouldReplaceRun_fst]
      simp [shouldFlag, h3]
    · exact h3
  rw [execute_still_collapsed env direction options st h1 h2, if_neg (by simp [hfalse])]
  simp [bufferLock]

/-- C5: on the non-collapsed path, the count reported to the aggregator
equals the sum, over the minimal flat ranges of the working selection's
first range, of the number of items yielded by a shallow,
single-character walk of each flat range with element-end boundaries
excluded — so counting is additive across minimal flat ranges. -/
theorem execute_count_is_sum_over_minimal_flat_ranges (env : Env)
    (direction : Direction) (options : Options) (st : DeleteState)
    (h : (workingSel env direction options st).isCollapsed = false) :
    Event.input (((env.getMinimalFlatRanges
        (workingSel env direction options st).firstRange).map
      (fun range => env.walkerCount range
        { singleCharacters := true, ignoreElementEnd := true, shallow := true })).sum)
      ∈ (execute env direction options st).2 ∧
    (execute env direction options st).1.bufferedUnits = st.bufferedUnits +
      ((env.getMinimalFlatRanges
          (workingSel env direction options st).firstRange).map
        (fun range => env.walkerCount range
          { singleCharacters := true, ignoreElementEnd := true, shallow := true })).sum := by
  rw [execute_not_collapsed env direction options st h]
  exact ⟨by simp [List.mem_append], rfl⟩

/-- C6: the `doNotResetEntireContent` flag passed to the content remover
equals the collapsed state of the selection as recorded before the
extension attempt; in particular, for every initially collapsed
selection that the extension makes non-collapsed, `deleteContent` is
called with the flag set to `true`. -/
theorem execute_doNotResetEntireContent_is_wasCollapsed (env : Env)
    (direction : Direction) (options : Options) (st : DeleteState)
    (h : (workingSel env direction options st).isCollapsed = false) :
    Event.deleteContent st.liveSel.isCollapsed ∈ (execute env direction options st).2 ∧
    (∀ b, Event.deleteContent b ∈ (execute env direction options st).2 →
      b = st.liveSel.isCollapsed) ∧
    (st.liveSel.isCollapsed = true →
      Event.deleteContent true ∈ (execute env direction options st).2) := by
  rw [execute_not_collapsed env direction options st h]
  refine ⟨by simp [List.mem_append], ?_, ?_⟩
  · intro b hb
    cases hc : st.liveSel.isCollapsed <;> simp [hc] at hb <;> simp [hb]
  · intro hcol
    simp [hcol, List.mem_append]

/-- C7: on the non-collapsed path, mutations happen in the fixed order
content removal, then count report, then live-selection update, then
unlock; no selection update, content removal or count report precedes
that final block, so the live selection is never updated before the
content mutation completes. -/
theorem execute_mutation_order (env : Env) (direction : Direction)
    (options : Options) (st : DeleteState)
    (h : (workingSel env direction options st).isCollapsed = false) :
    ∃ tr f n, (execute env direction options st).2 =
        tr ++ [Event.deleteContent f, Event.input n,
               Event.setLiveSelRanges, Event.unlock] ∧
      Event.setLiveSelRanges ∉ tr ∧
      (∀ b, Event.deleteContent b ∉ tr) ∧
      (∀ m, Event.input m ∉ tr) := by
  rw [execute_not_collapsed env direction options st h]
  refine ⟨_, _, _, rfl, ?_, ?_, ?_⟩
  · cases hc : st.liveSel.isCollapsed <;> simp
  · intro b
    cases hc : st.liveSel.isCollapsed <;> simp
  · intro m
    cases hc : st.liveSel.isCollapsed <;> simp

/-- C8: for every initially non-collapsed selection, the behavior of
`execute` — final state and trace alike — is independent of
`options.unit`: the unit is consumed only by the selection-extension
call, which runs only when the selection is collapsed. -/
theorem execute_unit_independent_when_not_collapsed (env : Env)
    (direction : Direction) (st : DeleteState) (u1 u2 : Option String)
    (seq : Option Int)
    (h : st.liveSel.isCollapsed = false) :
    execute env direction { unit := u1, sequence := seq } st =
      execute env direction { unit := u2, sequence := seq } st := by
  have hw : ∀ u : Option String,
      workingSel env direction { unit := u, sequence := seq } st = st.liveSel := by
    intro u
    simp [workingSel, h]
  have h1 : (workingSel env direction { unit := u1, sequence := seq } st).isCollapsed
      = false := by rw [hw]; exact h
  have h2 : (workingSel env direction { unit := u2, sequence := seq } st).isCollapsed
      = false := by rw [hw]; exact h
  rw [execute_not_collapsed env direction _ st h1,
      execute_not_collapsed env direction _ st h2, hw, hw]
  simp [h]

/-- C9: a request with `options.sequence` equal to `0` is treated
exactly as sequence `1`: the JavaScript falsy `0` falls through to the
default, so `sequence = 0` does not suppress the entire-content
replacement the way `sequence > 1` does — the two runs are identical in
final state and trace. -/
theorem execute_sequence_zero_as_one (env : Env) (direction : Direction)
    (u : Option String) (st : DeleteState) :
    jsOrDefault (some 0) 1 = 1 ∧
    execute env direction { unit := u, sequence := some 0 } st =
      execute env direction { unit := u, sequence := some 1 } st := by
  have key : ∀ o1 o2 : Options, o1.unit = o2.unit →
      jsOrDefault o1.sequence 1 = jsOrDefault o2.sequence 1 →
      execute env direction o1 st = execute env direction o2 st := by
    intro o1 o2 hu hs
    simp only [execute, hu, hs]
  exact ⟨rfl, key _ _ rfl rfl⟩

/-! ## Concrete instances (for witnesses and counter-demonstrations) -/

/-- A collapsed selection value. -/
def selT : Sel :=
  { isCollapsed := true, isBackward := false, firstRange := ⟨0⟩, ranges := [⟨0⟩],
    firstPosition := ⟨1⟩, lastPosition := ⟨2⟩, collapsedIn := none }

/-- A non-collapsed selection value. -/
def selNC : Sel :=
  { isCollapsed := false, isBackward := false, firstRange := ⟨0⟩, ranges := [⟨0⟩],
    firstPosition := ⟨1⟩, lastPosition := ⟨2⟩, collapsedIn := none }

/-- An environment in which the entire-content-replacement conditions
all hold (boundaries touch, the schema allows a paragraph, the common
ancestor is not a paragraph) and extension never extends. -/
def envT : Env :=
  { getLimitElement := fun _ => { name := "root", id := 0 },
    createAtStart := fun _ => ⟨1⟩,
    createAtEnd := fun _ => ⟨2⟩,
    touching := fun _ _ => true,
    schemaCheck := fun _ _ => true,
    getCommonAncestor := fun _ => { name := "root", id := 0 },
    modifySelection := fun s _ _ => s,
    getMinimalFlatRanges := fun r => [r],
    walkerCount := fun _ _ => 0,
    deleteContentChildren := fun c _ _ => c,
    deleteContentSel := fun s _ => s,
    docSetRanges := fun s rs b => { s with ranges := rs, isBackward := b },
    freshId := 42 }

/-- An environment in which the selection does not touch the limit
element's boundaries (so the replacement predicate fails) and
extension never extends. -/
def env0 : Env :=
  { envT with touching := fun _ _ => false }

/-- A state with a collapsed live selection. -/
def stT : DeleteState :=
  { limitChildren := [{ name := "x", id := 5 }], liveSel := selT,
    lockDepth := 0, bufferedUnits := 0 }

/-- A state with a non-collapsed live selection. -/
def stNC : DeleteState :=
  { limitChildren := [{ name := "x", id := 5 }], liveSel := selNC,
    lockDepth := 0, bufferedUnits := 0 }

/-- An environment in which the first range decomposes into two minimal
flat ranges of three walkable units each. -/
def envC : Env :=
  { envT with
    getMinimalFlatRanges := fun _ => [⟨10⟩, ⟨11⟩],
    walkerCount := fun _ _ => 3 }

/-- An environment whose extension attempt turns a collapsed selection
into a non-collapsed one. -/
def envX : Env :=
  { envT with modifySelection := fun s _ _ => { s with isCollapsed := false } }

/-- Witness for C2 at `envT`, `stT`, `sequence = 1`. -/
theorem shouldReplace_true_iff_witness :
    (1:Int) ≤ 1 ∧
    ((shouldEntireContentBeReplacedWithParagraphRun envT 1 stT).1 = true ↔
      ((1:Int) = 1 ∧
       envT.touching (envT.createAtStart (envT.getLimitElement stT.liveSel))
         stT.liveSel.firstPosition = true ∧
       envT.touching (envT.createAtEnd (envT.getLimitElement stT.liveSel))
         stT.liveSel.lastPosition = true ∧
       envT.schemaCheck "paragraph" (envT.getLimitElement stT.liveSel).name = true ∧
       (envT.getCommonAncestor stT.liveSel.firstRange).name ≠ "paragraph")) :=
  ⟨by norm_num, shouldReplace_true_iff envT stT 1 (by norm_num)⟩

/-- Witness for C3 at `envT`, `stT` (collapsed selection that stays
collapsed, all replacement conditions hold). -/
theorem execute_replaces_entire_content_witness :
    (stT.liveSel.isCollapsed = true ∧
     (envT.modifySelection stT.liveSel Direction.backward none).isCollapsed = true ∧
     (shouldEntireContentBeReplacedWithParagraphRun envT
        (jsOrDefault (none : Option Int) 1) stT).1 = true) ∧
    ((execute envT Direction.backward { unit := none, sequence := none } stT).1.limitChildren =
       [{ name := "paragraph", id := envT.freshId }] ∧
     (execute envT Direction.backward { unit := none, sequence := none } stT).1.liveSel.isCollapsed = true ∧
     (execute envT Direction.backward { unit := none, sequence := none } stT).1.liveSel.collapsedIn =
       some envT.freshId ∧
     (execute envT Direction.backward { unit := none, sequence := none } stT).2 =
       [Event.lock, Event.modifySel Direction.backward none,
        Event.batchRemoveAllInLimit (envT.getLimitElement stT.liveSel).id,
        Event.batchInsertAtLimitStart (envT.getLimitElement stT.liveSel).id "paragraph",
        Event.collapseLiveSel envT.freshId]) :=
  ⟨⟨by decide, by decide, by decide⟩,
   execute_replaces_entire_content envT Direction.backward
     { unit := none, sequence := none } stT (by decide) (by decide) (by decide)⟩

/-- Witness for C4 at `envT`, `stT`, `sequence = 2` (a held-key repeat:
the selection stays collapsed and the predicate is suppressed). -/
theorem execute_noop_when_still_collapsed_witness :
    (stT.liveSel.isCollapsed = true ∧
     (envT.modifySelection stT.liveSel Direction.backward none).isCollapsed = true ∧
     (1 < jsOrDefault (some 2) 1 ∨
       (shouldEntireContentBeReplacedWithParagraphRun envT
         (jsOrDefault (some 2) 1) stT).1 = false)) ∧
    ((execute envT Direction.backward { unit := none, sequence := some 2 } stT).1.limitChildren =
       stT.limitChildren ∧
     (execute envT Direction.backward { unit := none, sequence := some 2 } stT).1.liveSel =
       stT.liveSel ∧
     (execute envT Direction.backward { unit := none, sequence := some 2 } stT).1.bufferedUnits =
       stT.bufferedUnits ∧
     (∀ b, Event.deleteContent b ∉
       (execute envT Direction.backward { unit := none, sequence := some 2 } stT).2) ∧
     (∀ i, Event.batchRemoveAllInLimit i ∉
       (execute envT Direction.backward { unit := none, sequence := some 2 } stT).2) ∧
     (∀ i nm, Event.batchInsertAtLimitStart i nm ∉
       (execute envT Direction.backward { unit := none, sequence := some 2 } stT).2) ∧
     (∀ n, Event.input n ∉
       (execute envT Direction.backward { unit := none, sequence := some 2 } stT).2)) :=
  ⟨⟨by decide, by decide, Or.inl (by decide)⟩,
   execute_noop_when_still_collapsed envT Direction.backward
     { unit := none, sequence := some 2 } stT (by decide) (by decide) (Or.inl (by decide))⟩

/-- Witness for C5 at `envC`, `stNC`: the working selection's first
range decomposes into two minimal flat ranges of three units each, and
the reported count is their sum `6`. -/
theorem execute_count_is_sum_over_minimal_flat_ranges_witness :
    (workingSel envC Direction.forward { unit := none, sequence := none } stNC).isCollapsed
      = false ∧
    (Event.input 6 ∈
      (execute envC Direction.forward { unit := none, sequence := none } stNC).2 ∧
     (execute envC Direction.forward { unit := none, sequence := none } stNC).1.bufferedUnits =
       stNC.bufferedUnits + 6) :=
  ⟨by decide,
   execute_count_is_sum_over_minimal_flat_ranges envC Direction.forward
     { unit := none, sequence := none } stNC (by decide)⟩

/-- Witness for C6 at `envX`, `stT`: an initially collapsed selection
that the extension makes non-collapsed, so the remover is called with
`doNotResetEntireContent = true`. -/
theorem execute_doNotResetEntireContent_is_wasCollapsed_witness :
    (workingSel envX Direction.backward { unit := none, sequence := none } stT).isCollapsed
      = false ∧
    (Event.deleteContent stT.liveSel.isCollapsed ∈
      (execute envX Direction.backward { unit := none, sequence := none } stT).2 ∧
     (∀ b, Event.deleteContent b ∈
        (execute envX Direction.backward { unit := none, sequence := none } stT).2 →
       b = stT.liveSel.isCollapsed) ∧
     (stT.liveSel.isCollapsed = true →
       Event.deleteContent true ∈
         (execute envX Direction.backward { unit := none, sequence := none } stT).2)) :=
  ⟨by decide,
   execute_doNotResetEntireContent_is_wasCollapsed envX Direction.backward
     { unit := none, sequence := none } stT (by decide)⟩

/-- Witness for C7 at `envT`, `stNC` (non-collapsed selection). -/
theorem execute_mutation_order_witness :
    (workingSel envT Direction.forward { unit := none, sequence := none } stNC).isCollapsed
      = false ∧
    (∃ tr f n, (execute envT Direction.forward { unit := none, sequence := none } stNC).2 =
        tr ++ [Event.deleteContent f, Event.input n,
               Event.setLiveSelRanges, Event.unlock] ∧
      Event.setLiveSelRanges ∉ tr ∧
      (∀ b, Event.deleteContent b ∉ tr) ∧
      (∀ m, Event.input m ∉ tr)) :=
  ⟨by decide,
   execute_mutation_order envT Direction.forward
     { unit := none, sequence := none } stNC (by decide)⟩

/-- Witness for C8 at `envT`, `stNC`: two runs differing only in the
unit option coincide. -/
theorem execute_unit_independent_when_not_collapsed_witness :
    stNC.liveSel.isCollapsed = false ∧
    execute envT Direction.forward { unit := some "character", sequence := none } stNC =
      execute envT Direction.forward { unit := some "codePoint", sequence := none } stNC :=
  ⟨by decide,
   execute_unit_independent_when_not_collapsed envT Direction.forward stNC
     (some "character") (some "codePoint") none (by decide)⟩

/-- C1 (refuted on the code): on the early-return path (the selection is
and remains collapsed and the replacement predicate is false), `execute`
increments the lock depth at entry but never decrements it — after the
call the lock depth is one more than before it and no unlock action was
performed, so the aggregation scope is not balanced. -/
theorem execute_lock_depth_unbalanced :
    (execute env0 Direction.backward { unit := none, sequence := none } stT).1.lockDepth
      = stT.lockDepth + 1 ∧
    (execute env0 Direction.backward { unit := none, sequence := none } stT).1.lockDepth
      ≠ stT.lockDepth ∧
    Event.unlock ∉ (execute env0 Direction.backward { unit := none, sequence := none } stT).2 := by
  refine ⟨rfl, by decide, by decide⟩

end DeleteCommand
